import Mathlib

/-!
Verification development for a MicroPython driver of the QMC5883L
three-axis magnetometer (file src/lib/qmc5883l.py).

The driver is embedded shallowly:
* the mutable fields of the Python object (`self.scale`, `self.toffset`,
  `self.declination`, `self.data`, `self.address`) become a state record
  `QMCState`;
* every method becomes a pure function from the state (plus the bytes the
  bus would deliver, for reads) to a new state, an explicit trace of bus
  and state events, and an `Except` result mirroring Python exceptions;
* Python floats are idealised as real numbers for the trigonometric
  heading computation and as rationals for the exact divisions performed
  by the sample decoder;
* machine integers are natural numbers with explicit `% 256` where a byte
  is interpreted.
-/

namespace QMC5883L

/-- Register and enum constants of the driver, copied from the class body. -/
def REG_CR1 : ℕ := 0x9

def REG_CR2 : ℕ := 0xA

def MODE_STBY : ℕ := 0

def MODE_CONT : ℕ := 1

def ODR_10HZ : ℕ := 0

def ODR_50HZ : ℕ := 1

def ODR_100HZ : ℕ := 2

def ODR_200HZ : ℕ := 3

def RNG_2G : ℕ := 0

def RNG_8G : ℕ := 1

def OSR_512 : ℕ := 0

def OSR_256 : ℕ := 1

def OSR_128 : ℕ := 2

def OSR_64 : ℕ := 3

/-- Dictionary RANGESCALE = \x7bRNG_2G:12000, RNG_8G:3000\x7d, as a partial map:
`some` exactly on the dictionary keys. -/
def RANGESCALE (rng : ℕ) : Option ℕ :=
  if rng = RNG_2G then some 12000 else if rng = RNG_8G then some 3000 else none

/-- Mutable fields of the Python driver object. -/
structure QMCState where
  address : ℕ
  declination : ℝ
  scale : ℕ
  toffset : ℚ
  data : List ℕ

/-- Observable effects of a method call: the scale-field assignment, the
I2C transactions (writeto_mem / readfrom_mem_into) and the time.sleep
calls, in program order. -/
inductive Event where
  | setScale (v : ℕ) : Event
  | busWrite (addr reg : ℕ) (bs : List ℕ) : Event
  | busRead (addr reg n : ℕ) : Event
  | sleep (seconds : ℚ) : Event
deriving DecidableEq, Repr

/-- Bytes of the Python literal written by reset. The literal reads
b..x10000000 : the escape consumes the two hex digits 1 and 0 giving the
single byte 0x10, and the remaining six characters are ASCII digit zero,
0x30 each — seven bytes in total. -/
def RESET_BYTES : List ℕ := [0x10, 0x30, 0x30, 0x30, 0x30, 0x30, 0x30]

/-- Method reset: one write of RESET_BYTES to control register 2. -/
def reset (s : QMCState) : List Event :=
  [Event.busWrite s.address REG_CR2 RESET_BYTES]

/-- Method write_config, translated line by line.  The range is validated
against the RANGESCALE keys first (unsupported values raise before any
bus traffic and before the scale assignment); on a supported range the
scale field is assigned, the device is reset, and the two packed control
bytes are written out.  bytearray([v]) in Python raises for v outside
0..255, so each control-byte write is guarded the same way. -/
def write_config (s : QMCState) (mode odr rng osr rol_pnt int_en : ℕ) :
    QMCState × List Event × Except String Unit :=
  match RANGESCALE rng with
  | none => (s, [], Except.error ("unsupported range value: " ++ toString rng))
  | some sc =>
    let s1 : QMCState := { s with scale := sc }
    let pre : List Event := Event.setScale sc :: reset s1 ++ [Event.sleep (5 / 1000)]
    let cr1_byte : ℕ := (osr <<< 6) ||| (rng <<< 4) ||| (odr <<< 2) ||| mode
    let cr2_byte : ℕ := (rol_pnt <<< 6) ||| int_en
    if 256 ≤ cr1_byte then
      (s1, pre, Except.error "bytes must be in range(0, 256)")
    else if 256 ≤ cr2_byte then
      (s1, pre ++ [Event.busWrite s1.address REG_CR1 [cr1_byte]],
        Except.error "bytes must be in range(0, 256)")
    else
      (s1,
        pre ++ [Event.busWrite s1.address REG_CR1 [cr1_byte],
          Event.busWrite s1.address REG_CR2 [cr2_byte], Event.sleep (5 / 1000)],
        Except.ok ())

/-- Little-endian signed 16-bit interpretation of two bytes, as performed
by ustruct.unpack format character h. -/
def toInt16 (lo hi : ℕ) : ℤ :=
  let w : ℕ := lo % 256 + 256 * (hi % 256)
  if w < 32768 then (w : ℤ) else (w : ℤ) - 65536

/-- Signed 8-bit interpretation of one byte, unpack format character b. -/
def toInt8 (b : ℕ) : ℤ :=
  let v : ℕ := b % 256
  if v < 128 then (v : ℤ) else (v : ℤ) - 256

/-- unpack with format string lt-hhhbh on the 9-byte data buffer:
x at offsets 0-1, y at 2-3, z at 4-5, status at 6, temperature at 7-8,
all little endian. -/
def unpack_hhhbh (bs : List ℕ) : ℤ × ℤ × ℤ × ℤ × ℤ :=
  (toInt16 (bs.getD 0 0) (bs.getD 1 0),
   toInt16 (bs.getD 2 0) (bs.getD 3 0),
   toInt16 (bs.getD 4 0) (bs.getD 5 0),
   toInt8 (bs.getD 6 0),
   toInt16 (bs.getD 7 0) (bs.getD 8 0))

/-- Conversion of the unpacked raw fields into the returned tuple:
axes divided by the scale field, status passed through, temperature
divided by 100 with the offset added. -/
def decodeSample (scale : ℕ) (toffset : ℚ) (bs : List ℕ) :
    ℚ × ℚ × ℚ × ℤ × ℚ :=
  ((((unpack_hhhbh bs).1 : ℚ)) / (scale : ℚ),
   (((unpack_hhhbh bs).2.1 : ℚ)) / (scale : ℚ),
   (((unpack_hhhbh bs).2.2.1 : ℚ)) / (scale : ℚ),
   (unpack_hhhbh bs).2.2.2.1,
   (((unpack_hhhbh bs).2.2.2.2 : ℚ)) / 100 + toffset)

/-- Method read.  readfrom_mem_into requests exactly len(self.data) = 9
bytes starting at register 0x00 (the buffer is allocated with nine cells
in the constructor and only ever overwritten by nine-byte responses); a
transport that cannot deliver all nine bytes raises, so `resp`, the bytes
the bus delivers, yields a sample only when it has length 9.  On success
the buffer is overwritten and the tuple is decoded with the live scale
and toffset fields. -/
def read (s : QMCState) (resp : List ℕ) :
    QMCState × List Event × Except String (ℚ × ℚ × ℚ × ℤ × ℚ) :=
  if resp.length = 9 then
    let s1 : QMCState := { s with data := resp }
    (s1, [Event.busRead s.address 0x00 9, Event.sleep (5 / 1000)],
      Except.ok (decodeSample s1.scale s1.toffset resp))
  else
    (s, [Event.busRead s.address 0x00 9], Except.error "ShortRead")

/-- math.atan2(y, x), idealised over the reals: the argument of the
complex number with real part x and imaginary part y, in (-pi, pi]. -/
noncomputable def atan2 (y x : ℝ) : ℝ := Complex.arg ⟨x, y⟩

/-- Single-step angle correction performed by the heading method: one
addition of two pi when the angle is negative, otherwise one subtraction
when it exceeds two pi, otherwise the angle unchanged. -/
noncomputable def normalizeAngle (a : ℝ) : ℝ :=
  if a < 0 then a + 2 * Real.pi
  else if a > 2 * Real.pi then a - 2 * Real.pi
  else a

/-- Python 3 round on floats: nearest integer, ties to the even integer. -/
noncomputable def pyRound (x : ℝ) : ℤ :=
  if Int.fract x = 1 / 2 then
    (if (⌊x⌋ : ℤ) % 2 = 0 then ⌊x⌋ else ⌊x⌋ + 1)
  else round x

/-- Pure heading computation of the heading method: atan2, declination
added, single-step wrap correction, conversion to degrees, then
math.floor for whole degrees and round for minutes. -/
noncomputable def heading_dm (decl x y : ℝ) : ℤ × ℤ :=
  let heading_rad : ℝ := normalizeAngle (atan2 y x + decl)
  let heading : ℝ := heading_rad * 180 / Real.pi
  let degrees : ℤ := ⌊heading⌋
  (degrees, pyRound ((heading - (degrees : ℝ)) * 60))

/-- Method heading as executed on the driver object: its body touches no
field but declination, issues no bus transaction and raises nothing. -/
noncomputable def heading_method (s : QMCState) (x y : ℝ) :
    QMCState × List Event × Except String (ℤ × ℤ) :=
  (s, [], Except.ok (heading_dm s.declination x y))

/-- Field values assigned by the constructor before it calls
write_config: declination in radians from the (degrees, minutes) pair,
scale 3000, toffset 0, data not yet allocated. -/
noncomputable def init_fields (i2caddr : ℕ) (declination : ℤ × ℤ) : QMCState :=
  { address := i2caddr
    declination := ((declination.1 : ℝ) + (declination.2 : ℝ) / 60) * Real.pi / 180
    scale := 3000
    toffset := 0
    data := [] }

/-- Constructor: assigns the fields, calls write_config with
odr=ODR_100HZ, rng=RNG_2G, osr=OSR_512, mode=MODE_CONT and the defaults
rol_pnt=1, int_en=0, then allocates the nine-byte data buffer. -/
noncomputable def init (i2caddr : ℕ) (declination : ℤ × ℤ) :
    QMCState × List Event × Except String Unit :=
  let r := write_config (init_fields i2caddr declination)
    MODE_CONT ODR_100HZ RNG_2G OSR_512 1 0
  match r.2.2 with
  | Except.ok _ => ({ r.1 with data := List.replicate 9 0 }, r.2.1, Except.ok ())
  | Except.error e => (r.1, r.2.1, Except.error e)

/-! Helper lemmas shared by several claim theorems. -/

lemma cr1_byte_lt {mode odr rng osr : ℕ} (hm : mode ≤ 1) (ho : odr ≤ 3)
    (hr : rng ≤ 1) (hs : osr ≤ 3) :
    (osr <<< 6) ||| (rng <<< 4) ||| (odr <<< 2) ||| mode < 256 := by
  interval_cases osr <;> interval_cases rng <;> interval_cases odr <;>
    interval_cases mode <;> decide

lemma cr2_byte_lt {rol_pnt int_en : ℕ} (hr : rol_pnt ≤ 1) (hi : int_en ≤ 1) :
    (rol_pnt <<< 6) ||| int_en < 256 := by
  interval_cases rol_pnt <;> interval_cases int_en <;> decide

lemma cr1_byte_eq_add {mode odr rng osr : ℕ} (hm : mode ≤ 1) (ho : odr ≤ 3)
    (hr : rng ≤ 1) (hs : osr ≤ 3) :
    (osr <<< 6) ||| (rng <<< 4) ||| (odr <<< 2) ||| mode =
      64 * osr + 16 * rng + 4 * odr + mode := by
  interval_cases osr <;> interval_cases rng <;> interval_cases odr <;>
    interval_cases mode <;> decide

lemma cr2_byte_eq_add {rol_pnt int_en : ℕ} (hr : rol_pnt ≤ 1) (hi : int_en ≤ 1) :
    (rol_pnt <<< 6) ||| int_en = 64 * rol_pnt + int_en := by
  interval_cases rol_pnt <;> interval_cases int_en <;> decide

lemma write_config_eval (s : QMCState) (mode odr rng osr rol_pnt int_en sc : ℕ)
    (hr : RANGESCALE rng = some sc)
    (h1 : (osr <<< 6) ||| (rng <<< 4) ||| (odr <<< 2) ||| mode < 256)
    (h2 : (rol_pnt <<< 6) ||| int_en < 256) :
    write_config s mode odr rng osr rol_pnt int_en =
      ({ s with scale := sc },
        [Event.setScale sc, Event.busWrite s.address REG_CR2 RESET_BYTES,
         Event.sleep (5 / 1000),
         Event.busWrite s.address REG_CR1
           [(osr <<< 6) ||| (rng <<< 4) ||| (odr <<< 2) ||| mode],
         Event.busWrite s.address REG_CR2 [(rol_pnt <<< 6) ||| int_en],
         Event.sleep (5 / 1000)],
        Except.ok ()) := by
  unfold write_config
  rw [hr]
  simp [reset, not_le.mpr h1, not_le.mpr h2]

/-! Claim theorems. -/

/-- C4: for every range value outside the supported set, write_config
fails with the unsupported-range error, performs no bus write at all, and
leaves the whole driver state, its scale field included, unchanged. -/
theorem write_config_unsupported_range (s : QMCState)
    (mode odr rng osr rol_pnt int_en : ℕ) (h : 2 ≤ rng) :
    write_config s mode odr rng osr rol_pnt int_en =
      (s, [], Except.error ("unsupported range value: " ++ toString rng)) := by
  have h0 : RANGESCALE rng = none := by
    unfold RANGESCALE RNG_2G RNG_8G
    rw [if_neg (by omega), if_neg (by omega)]
  unfold write_config
  rw [h0]

theorem write_config_unsupported_range_witness :
    2 ≤ 5 ∧
    write_config ⟨13, 0, 3000, 0, []⟩ 1 2 5 0 1 0 =
      (⟨13, 0, 3000, 0, []⟩, [],
        Except.error ("unsupported range value: " ++ toString 5)) :=
  ⟨by decide, write_config_unsupported_range ⟨13, 0, 3000, 0, []⟩ 1 2 5 0 1 0 (by decide)⟩

/-- C3: read on a transport delivering fewer than nine bytes fails with
the ShortRead error and never returns a sample, and any successful read
is one whose transport delivered exactly nine bytes. -/
theorem read_short_read (s : QMCState) (resp : List ℕ) (h : resp.length < 9) :
    (read s resp).2.2 = Except.error "ShortRead" ∧
    (∀ q, (read s resp).2.2 ≠ Except.ok q) ∧
    (∀ resp2 : List ℕ, ∀ q : ℚ × ℚ × ℚ × ℤ × ℚ,
      (read s resp2).2.2 = Except.ok q → resp2.length = 9) := by
  refine ⟨?_, ?_, ?_⟩
  · unfold read
    rw [if_neg (by omega)]
  · intro q
    unfold read
    rw [if_neg (by omega)]
    simp
  · intro resp2 q hq
    by_contra hne
    unfold read at hq
    rw [if_neg hne] at hq
    exact Except.noConfusion hq

theorem read_short_read_witness :
    ([1, 2, 3] : List ℕ).length < 9 ∧
    ((read ⟨13, 0, 12000, 0, []⟩ [1, 2, 3]).2.2 = Except.error "ShortRead" ∧
     (∀ q, (read ⟨13, 0, 12000, 0, []⟩ [1, 2, 3]).2.2 ≠ Except.ok q) ∧
     (∀ resp2 : List ℕ, ∀ q : ℚ × ℚ × ℚ × ℤ × ℚ,
       (read ⟨13, 0, 12000, 0, []⟩ resp2).2.2 = Except.ok q → resp2.length = 9)) :=
  ⟨by decide, read_short_read ⟨13, 0, 12000, 0, []⟩ [1, 2, 3] (by decide)⟩

/-- C5: read interprets any nine-byte buffer little endian as signed
16-bit x, y, z, a status byte and a signed 16-bit temperature, returning
the axes divided by the scale field, the status, and temperature over 100
plus the offset; on the buffer encoding x=1000, y=-500, z=0, status=1,
temp=2500 at scale 3000 it yields (1/3, -1/6, 0, 1, 25). -/
theorem read_decodes_layout (s : QMCState) (resp : List ℕ)
    (h9 : resp.length = 9) :
    (read s resp).2.2 = Except.ok
      (((toInt16 (resp.getD 0 0) (resp.getD 1 0) : ℚ)) / (s.scale : ℚ),
       ((toInt16 (resp.getD 2 0) (resp.getD 3 0) : ℚ)) / (s.scale : ℚ),
       ((toInt16 (resp.getD 4 0) (resp.getD 5 0) : ℚ)) / (s.scale : ℚ),
       toInt8 (resp.getD 6 0),
       ((toInt16 (resp.getD 7 0) (resp.getD 8 0) : ℚ)) / 100 + s.toffset) ∧
    (read ⟨13, 0, 3000, 0, List.replicate 9 0⟩
        [0xE8, 0x03, 0x0C, 0xFE, 0x00, 0x00, 0x01, 0xC4, 0x09]).2.2 =
      Except.ok (1 / 3, -(1 / 6), 0, 1, 25) := by
  constructor
  · unfold read
    rw [if_pos h9]
    rfl
  · simp only [read, decodeSample, unpack_hhhbh, toInt16, toInt8]
    norm_num

theorem read_decodes_layout_witness :
    ([0xE8, 0x03, 0x0C, 0xFE, 0x00, 0x00, 0x01, 0xC4, 0x09] : List ℕ).length = 9 ∧
    ((read ⟨13, 0, 3000, 0, List.replicate 9 0⟩
        [0xE8, 0x03, 0x0C, 0xFE, 0x00, 0x00, 0x01, 0xC4, 0x09]).2.2 =
      Except.ok
        (((toInt16 0xE8 0x03 : ℚ)) / ((3000 : ℕ) : ℚ),
         ((toInt16 0x0C 0xFE : ℚ)) / ((3000 : ℕ) : ℚ),
         ((toInt16 0x00 0x00 : ℚ)) / ((3000 : ℕ) : ℚ),
         toInt8 0x01,
         ((toInt16 0xC4 0x09 : ℚ)) / 100 + 0)) :=
  ⟨by decide,
    (read_decodes_layout ⟨13, 0, 3000, 0, List.replicate 9 0⟩
      [0xE8, 0x03, 0x0C, 0xFE, 0x00, 0x00, 0x01, 0xC4, 0x09] (by decide)).1⟩

/-- C1: for each supported range, write_config assigns the associated
scale (12000 for 2G, 3000 for 8G) as its very first event, before any bus
write, and a subsequent read decodes with that live scale value. -/
theorem write_config_sets_scale_before_bus (s : QMCState)
    (mode odr rng osr rol_pnt int_en : ℕ)
    (hm : mode ≤ 1) (ho : odr ≤ 3) (hr : rng = RNG_2G ∨ rng = RNG_8G)
    (hs : osr ≤ 3) (hrp : rol_pnt ≤ 1) (hie : int_en ≤ 1) :
    (write_config s mode odr rng osr rol_pnt int_en).1.scale =
      (if rng = RNG_2G then 12000 else 3000) ∧
    (write_config s mode odr rng osr rol_pnt int_en).2.1 =
      Event.setScale (if rng = RNG_2G then 12000 else 3000) ::
        [Event.busWrite s.address REG_CR2 RESET_BYTES, Event.sleep (5 / 1000),
         Event.busWrite s.address REG_CR1
           [(osr <<< 6) ||| (rng <<< 4) ||| (odr <<< 2) ||| mode],
         Event.busWrite s.address REG_CR2 [(rol_pnt <<< 6) ||| int_en],
         Event.sleep (5 / 1000)] ∧
    (∀ resp : List ℕ, resp.length = 9 →
      (read (write_config s mode odr rng osr rol_pnt int_en).1 resp).2.2 =
        Except.ok (decodeSample (if rng = RNG_2G then 12000 else 3000)
          s.toffset resp)) := by
  have hr1 : rng ≤ 1 := by
    rcases hr with h | h <;> simp [h, RNG_2G, RNG_8G]
  have hsc : RANGESCALE rng = some (if rng = RNG_2G then 12000 else 3000) := by
    rcases hr with h | h <;> subst h <;> rfl
  have he := write_config_eval s mode odr rng osr rol_pnt int_en
    (if rng = RNG_2G then 12000 else 3000) hsc
    (cr1_byte_lt hm ho hr1 hs) (cr2_byte_lt hrp hie)
  rw [he]
  refine ⟨rfl, rfl, ?_⟩
  intro resp h9
  unfold read
  rw [if_pos h9]

theorem write_config_sets_scale_before_bus_witness :
    ((1 : ℕ) ≤ 1 ∧ (2 : ℕ) ≤ 3 ∧ ((0 : ℕ) = RNG_2G ∨ (0 : ℕ) = RNG_8G) ∧
      (0 : ℕ) ≤ 3 ∧ (1 : ℕ) ≤ 1 ∧ (0 : ℕ) ≤ 1) ∧
    ((write_config ⟨13, 0, 3000, 0, []⟩ 1 2 0 0 1 0).1.scale =
      (if (0 : ℕ) = RNG_2G then 12000 else 3000) ∧
    (write_config ⟨13, 0, 3000, 0, []⟩ 1 2 0 0 1 0).2.1 =
      Event.setScale (if (0 : ℕ) = RNG_2G then 12000 else 3000) ::
        [Event.busWrite 13 REG_CR2 RESET_BYTES, Event.sleep (5 / 1000),
         Event.busWrite 13 REG_CR1
           [((0 : ℕ) <<< 6) ||| ((0 : ℕ) <<< 4) ||| ((2 : ℕ) <<< 2) ||| 1],
         Event.busWrite 13 REG_CR2 [((1 : ℕ) <<< 6) ||| 0],
         Event.sleep (5 / 1000)] ∧
    (∀ resp : List ℕ, resp.length = 9 →
      (read (write_config ⟨13, 0, 3000, 0, []⟩ 1 2 0 0 1 0).1 resp).2.2 =
        Except.ok (decodeSample (if (0 : ℕ) = RNG_2G then 12000 else 3000)
          0 resp))) :=
  ⟨⟨le_refl 1, by decide, Or.inl rfl, by decide, le_refl 1, by decide⟩,
    write_config_sets_scale_before_bus ⟨13, 0, 3000, 0, []⟩ 1 2 0 0 1 0
      (by decide) (by decide) (Or.inl rfl) (by decide) (by decide) (by decide)⟩

/-- C2: write_config packs control byte 1 as
(osr shifted 6) or (rng shifted 4) or (odr shifted 2) or mode, equal to
the carry-free sum 64 osr + 16 rng + 4 odr + mode, and control byte 2 as
(rol_pnt shifted 6) or int_en; for osr=0, rng=0, odr=2, mode=1 the first
control byte is 0x09. -/
theorem control_byte_packing (s : QMCState)
    (mode odr rng osr rol_pnt int_en : ℕ)
    (hm : mode ≤ 1) (ho : odr ≤ 3) (hr : rng = RNG_2G ∨ rng = RNG_8G)
    (hs : osr ≤ 3) (hrp : rol_pnt ≤ 1) (hie : int_en ≤ 1) :
    (write_config s mode odr rng osr rol_pnt int_en).2.1[3]? =
      some (Event.busWrite s.address REG_CR1
        [(osr <<< 6) ||| (rng <<< 4) ||| (odr <<< 2) ||| mode]) ∧
    (write_config s mode odr rng osr rol_pnt int_en).2.1[4]? =
      some (Event.busWrite s.address REG_CR2 [(rol_pnt <<< 6) ||| int_en]) ∧
    (osr <<< 6) ||| (rng <<< 4) ||| (odr <<< 2) ||| mode =
      64 * osr + 16 * rng + 4 * odr + mode ∧
    (rol_pnt <<< 6) ||| int_en = 64 * rol_pnt + int_en ∧
    (write_config s 1 2 RNG_2G 0 rol_pnt int_en).2.1[3]? =
      some (Event.busWrite s.address REG_CR1 [0x09]) := by
  have hr1 : rng ≤ 1 := by
    rcases hr with h | h <;> simp [h, RNG_2G, RNG_8G]
  have hsc : RANGESCALE rng = some (if rng = RNG_2G then 12000 else 3000) := by
    rcases hr with h | h <;> subst h <;> rfl
  rw [write_config_eval s mode odr rng osr rol_pnt int_en
    (if rng = RNG_2G then 12000 else 3000) hsc
    (cr1_byte_lt hm ho hr1 hs) (cr2_byte_lt hrp hie),
    write_config_eval s 1 2 RNG_2G 0 rol_pnt int_en 12000 rfl
      (by decide) (cr2_byte_lt hrp hie)]
  exact ⟨rfl, rfl, cr1_byte_eq_add hm ho hr1 hs, cr2_byte_eq_add hrp hie, rfl⟩

theorem control_byte_packing_witness :
    ((1 : ℕ) ≤ 1 ∧ (2 : ℕ) ≤ 3 ∧ ((0 : ℕ) = RNG_2G ∨ (0 : ℕ) = RNG_8G) ∧
      (3 : ℕ) ≤ 3 ∧ (1 : ℕ) ≤ 1 ∧ (1 : ℕ) ≤ 1) ∧
    ((write_config ⟨13, 0, 3000, 0, []⟩ 1 2 0 3 1 1).2.1[3]? =
      some (Event.busWrite 13 REG_CR1
        [((3 : ℕ) <<< 6) ||| ((0 : ℕ) <<< 4) ||| ((2 : ℕ) <<< 2) ||| 1]) ∧
    (write_config ⟨13, 0, 3000, 0, []⟩ 1 2 0 3 1 1).2.1[4]? =
      some (Event.busWrite 13 REG_CR2 [((1 : ℕ) <<< 6) ||| 1]) ∧
    ((3 : ℕ) <<< 6) ||| ((0 : ℕ) <<< 4) ||| ((2 : ℕ) <<< 2) ||| 1 =
      64 * 3 + 16 * 0 + 4 * 2 + 1 ∧
    ((1 : ℕ) <<< 6) ||| 1 = 64 * 1 + 1 ∧
    (write_config ⟨13, 0, 3000, 0, []⟩ 1 2 RNG_2G 0 1 1).2.1[3]? =
      some (Event.busWrite 13 REG_CR1 [0x09])) :=
  ⟨⟨le_refl 1, by decide, Or.inl rfl, le_refl 3, le_refl 1, le_refl 1⟩,
    control_byte_packing ⟨13, 0, 3000, 0, []⟩ 1 2 0 3 1 1
      (by decide) (by decide) (Or.inl rfl) (by decide) (by decide) (by decide)⟩

/-- C9: the constructor first sets the scale field to 3000, but then
unconditionally calls write_config with range RNG_2G, so every freshly
constructed driver ends with scale 12000, succeeds, and decodes its first
read with the 2G scale. -/
theorem init_scale_is_12000 (addr : ℕ) (decl : ℤ × ℤ) :
    (init_fields addr decl).scale = 3000 ∧
    (init addr decl).1.scale = 12000 ∧
    (init addr decl).2.2 = Except.ok () ∧
    (∀ resp : List ℕ, resp.length = 9 →
      (read (init addr decl).1 resp).2.2 =
        Except.ok (decodeSample 12000 0 resp)) := by
  have he := write_config_eval (init_fields addr decl)
    MODE_CONT ODR_100HZ RNG_2G OSR_512 1 0 12000 rfl (by decide) (by decide)
  refine ⟨rfl, ?_, ?_, ?_⟩
  · unfold init
    rw [he]
  · unfold init
    rw [he]
  · intro resp h9
    unfold init
    rw [he]
    unfold read
    rw [if_pos h9]
    rfl

theorem init_scale_is_12000_witness :
    (init_fields 13 (7, 42)).scale = 3000 ∧
    (init 13 (7, 42)).1.scale = 12000 ∧
    (init 13 (7, 42)).2.2 = Except.ok () ∧
    (∀ resp : List ℕ, resp.length = 9 →
      (read (init 13 (7, 42)).1 resp).2.2 =
        Except.ok (decodeSample 12000 0 resp)) :=
  init_scale_is_12000 13 (7, 42)

/-- C10: the reset value is the seven-byte sequence 0x10 followed by six
ASCII zero digits, not the single byte 0x80 the docstring describes, and
every write_config on a supported range issues exactly this write to
control register 2 before the two control-register writes. -/
theorem reset_writes_seven_byte_literal (s : QMCState)
    (mode odr rng osr rol_pnt int_en : ℕ)
    (hm : mode ≤ 1) (ho : odr ≤ 3) (hr : rng = RNG_2G ∨ rng = RNG_8G)
    (hs : osr ≤ 3) (hrp : rol_pnt ≤ 1) (hie : int_en ≤ 1) :
    reset s = [Event.busWrite s.address REG_CR2 RESET_BYTES] ∧
    RESET_BYTES = [0x10, 48, 48, 48, 48, 48, 48] ∧
    RESET_BYTES.length = 7 ∧
    RESET_BYTES ≠ [0b10000000] ∧
    (write_config s mode odr rng osr rol_pnt int_en).2.1 =
      [Event.setScale (if rng = RNG_2G then 12000 else 3000),
       Event.busWrite s.address REG_CR2 RESET_BYTES, Event.sleep (5 / 1000),
       Event.busWrite s.address REG_CR1
         [(osr <<< 6) ||| (rng <<< 4) ||| (odr <<< 2) ||| mode],
       Event.busWrite s.address REG_CR2 [(rol_pnt <<< 6) ||| int_en],
       Event.sleep (5 / 1000)] := by
  have hr1 : rng ≤ 1 := by
    rcases hr with h | h <;> simp [h, RNG_2G, RNG_8G]
  have hsc : RANGESCALE rng = some (if rng = RNG_2G then 12000 else 3000) := by
    rcases hr with h | h <;> subst h <;> rfl
  rw [write_config_eval s mode odr rng osr rol_pnt int_en
    (if rng = RNG_2G then 12000 else 3000) hsc
    (cr1_byte_lt hm ho hr1 hs) (cr2_byte_lt hrp hie)]
  exact ⟨rfl, rfl, rfl, by decide, rfl⟩

theorem reset_writes_seven_byte_literal_witness :
    ((0 : ℕ) ≤ 1 ∧ (0 : ℕ) ≤ 3 ∧ ((1 : ℕ) = RNG_2G ∨ (1 : ℕ) = RNG_8G) ∧
      (0 : ℕ) ≤ 3 ∧ (1 : ℕ) ≤ 1 ∧ (0 : ℕ) ≤ 1) ∧
    (reset ⟨13, 0, 3000, 0, []⟩ = [Event.busWrite 13 REG_CR2 RESET_BYTES] ∧
    RESET_BYTES = [0x10, 48, 48, 48, 48, 48, 48] ∧
    RESET_BYTES.length = 7 ∧
    RESET_BYTES ≠ [0b10000000] ∧
    (write_config ⟨13, 0, 3000, 0, []⟩ 0 0 1 0 1 0).2.1 =
      [Event.setScale (if (1 : ℕ) = RNG_2G then 12000 else 3000),
       Event.busWrite 13 REG_CR2 RESET_BYTES, Event.sleep (5 / 1000),
       Event.busWrite 13 REG_CR1
         [((0 : ℕ) <<< 6) ||| ((1 : ℕ) <<< 4) ||| ((0 : ℕ) <<< 2) ||| 0],
       Event.busWrite 13 REG_CR2 [((1 : ℕ) <<< 6) ||| 0],
       Event.sleep (5 / 1000)]) :=
  ⟨⟨by decide, by decide, Or.inr rfl, by decide, le_refl 1, by decide⟩,
    reset_writes_seven_byte_literal ⟨13, 0, 3000, 0, []⟩ 0 0 1 0 1 0
      (by decide) (by decide) (Or.inr rfl) (by decide) (by decide) (by decide)⟩

lemma heading_dm_eval (decl x y : ℝ) :
    heading_dm decl x y =
      (⌊normalizeAngle (atan2 y x + decl) * 180 / Real.pi⌋,
       pyRound ((normalizeAngle (atan2 y x + decl) * 180 / Real.pi -
         ((⌊normalizeAngle (atan2 y x + decl) * 180 / Real.pi⌋ : ℤ) : ℝ)) * 60)) :=
  rfl

lemma normalizeAngle_eq_self {a : ℝ} (h0 : 0 ≤ a) (h2 : a ≤ 2 * Real.pi) :
    normalizeAngle a = a := by
  unfold normalizeAngle
  rw [if_neg (not_lt.mpr h0), if_neg (not_lt.mpr h2)]

lemma pyRound_zero : pyRound 0 = 0 := by
  unfold pyRound
  rw [if_neg]
  · exact round_zero
  · rw [Int.fract_zero]
    norm_num

/-- C6: the correction applied by the heading method is single step: a
negative angle gets exactly one addition of two pi, an angle above two pi
exactly one subtraction, and for every pre-correction angle at least
minus two pi the single addition lands in the interval from zero up to
but excluding two pi, with no double wrap. -/
theorem normalizeAngle_single_step (a : ℝ)
    (h1 : -(2 * Real.pi) ≤ a) (h2 : a < 0) :
    normalizeAngle a = a + 2 * Real.pi ∧
    0 ≤ normalizeAngle a ∧ normalizeAngle a < 2 * Real.pi ∧
    (∀ b : ℝ, 2 * Real.pi < b → normalizeAngle b = b - 2 * Real.pi) := by
  have hno : normalizeAngle a = a + 2 * Real.pi := by
    unfold normalizeAngle
    rw [if_pos h2]
  refine ⟨hno, ?_, ?_, ?_⟩
  · rw [hno]
    linarith
  · rw [hno]
    linarith
  · intro b hb
    have hb0 : ¬ b < 0 := by nlinarith [Real.pi_pos]
    unfold normalizeAngle
    rw [if_neg hb0, if_pos hb]

theorem normalizeAngle_single_step_witness :
    (-(2 * Real.pi) ≤ -Real.pi ∧ -Real.pi < 0) ∧
    (normalizeAngle (-Real.pi) = -Real.pi + 2 * Real.pi ∧
     0 ≤ normalizeAngle (-Real.pi) ∧
     normalizeAngle (-Real.pi) < 2 * Real.pi ∧
     (∀ b : ℝ, 2 * Real.pi < b → normalizeAngle b = b - 2 * Real.pi)) :=
  ⟨⟨by linarith [Real.pi_pos], by linarith [Real.pi_pos]⟩,
    normalizeAngle_single_step (-Real.pi)
      (by linarith [Real.pi_pos]) (by linarith [Real.pi_pos])⟩

/-- C7: with declination zero, heading on (x, y) = (1, 0) yields exactly
(0 degrees, 0 minutes) and on (-1, 0) exactly (180 degrees, 0 minutes),
degrees being the floor of the angle in degrees and minutes the rounded
fractional degree times sixty. -/
theorem heading_cardinal_points :
    heading_dm 0 1 0 = (0, 0) ∧ heading_dm 0 (-1) 0 = (180, 0) := by
  constructor
  · have h1 : atan2 0 1 = 0 := by
      unfold atan2
      have he : (⟨1, 0⟩ : ℂ) = 1 := by
        apply Complex.ext <;> simp
      rw [he, Complex.arg_one]
    rw [heading_dm_eval, h1, add_zero,
      normalizeAngle_eq_self le_rfl (by positivity)]
    have e0 : (0 : ℝ) * 180 / Real.pi = 0 := by
      simp
    rw [e0, Int.floor_zero]
    norm_num [pyRound_zero]
  · have h2 : atan2 0 (-1) = Real.pi := by
      unfold atan2
      have he : (⟨-1, 0⟩ : ℂ) = -1 := by
        apply Complex.ext <;> simp
      rw [he, Complex.arg_neg_one]
    rw [heading_dm_eval, h2, add_zero,
      normalizeAngle_eq_self Real.pi_pos.le (by linarith [Real.pi_pos])]
    have e180 : Real.pi * 180 / Real.pi = 180 := by
      field_simp
    rw [e180, show ((180 : ℝ)) = ((180 : ℤ) : ℝ) by norm_num,
      Int.floor_intCast]
    norm_num [pyRound_zero]

/-- C8: the heading method is pure: it leaves the whole driver state
unchanged (scale, toffset, declination and data buffer included), emits
no bus event, never fails, and its value depends only on x, y and the
declination field. -/
theorem heading_method_pure (s s2 : QMCState) (x y : ℝ)
    (h : s.declination = s2.declination) :
    (heading_method s x y).1 = s ∧
    (heading_method s x y).2.1 = [] ∧
    (heading_method s x y).2.2 = Except.ok (heading_dm s.declination x y) ∧
    (heading_method s x y).2.2 = (heading_method s2 x y).2.2 := by
  refine ⟨rfl, rfl, rfl, ?_⟩
  simp [heading_method, h]

theorem heading_method_pure_witness :
    ((⟨13, 0, 12000, 0, []⟩ : QMCState).declination =
      (⟨14, 0, 3000, 5, [1]⟩ : QMCState).declination) ∧
    ((heading_method ⟨13, 0, 12000, 0, []⟩ 1 0).1 = ⟨13, 0, 12000, 0, []⟩ ∧
     (heading_method ⟨13, 0, 12000, 0, []⟩ 1 0).2.1 = [] ∧
     (heading_method ⟨13, 0, 12000, 0, []⟩ 1 0).2.2 =
       Except.ok (heading_dm (⟨13, 0, 12000, 0, []⟩ : QMCState).declination 1 0) ∧
     (heading_method ⟨13, 0, 12000, 0, []⟩ 1 0).2.2 =
       (heading_method ⟨14, 0, 3000, 5, [1]⟩ 1 0).2.2) :=
  ⟨rfl, heading_method_pure ⟨13, 0, 12000, 0, []⟩ ⟨14, 0, 3000, 5, [1]⟩ 1 0 rfl⟩

end QMC5883L
